import Mathlib

/-!
# Verification of `engine/numerics.py`

Shallow embedding of the numerical module providing `erf`, `cdf` and
`cdf_table` (scalar-or-array approximations of the error function and the
normal / log-normal cumulative distribution function), together with proofs
and refutations of the specified properties.

Real numbers model the floating-point values; `RVal` models the
scalar-or-array dispatch performed by the Python code.
-/

namespace Numerics

/-- A value that is either a scalar or an ordered sequence of reals,
mirroring the scalar-vs-array runtime dispatch of the Python module. -/
inductive RVal where
  | scalar : ℝ → RVal
  | array : List ℝ → RVal

/-- Elementwise application of a real function, as numpy's vectorized
operations act on the wrapped value. -/
noncomputable def mapR (f : ℝ → ℝ) : RVal → RVal
  | .scalar x => .scalar (f x)
  | .array xs => .array (xs.map f)

/-- The vectorized body of `erf` before the sign mask is applied:
`ans = 1 - t * exp(-z*z - 1.26551223 + t*(1.00002368 + ... ))` with
`t = 1.0 / (1.0 + 0.5 * |z|)`, exactly as in the source. -/
noncomputable def erf_mag (z : ℝ) : ℝ :=
  let t : ℝ := 1.0 / (1.0 + 0.5 * |z|)
  1 - t * Real.exp (-z * z - 1.26551223 +
      t * (1.00002368 +
      t * (0.37409196 +
      t * (0.09678418 +
      t * (-0.18628806 +
      t * (0.27886807 +
      t * (-1.13520398 +
      t * (1.48851587 +
      t * (-0.82215223 +
      t * 0.17087277)))))))))

/-- One element of `erf`: the body `ans`, negated where the input is
negative (the source's `ans[neg] = -ans[neg]` mask with `neg = (z < 0.0)`). -/
noncomputable def erf_scalar (z : ℝ) : ℝ :=
  if z < 0 then -erf_mag z else erf_mag z

/-- The module's `erf`: dispatches on scalar vs array and applies the
Chebyshev/Horner approximation elementwise. -/
noncomputable def erf : RVal → RVal
  | .scalar x => .scalar (erf_scalar x)
  | .array xs => .array (xs.map erf_scalar)

/-- Reference definition of the erf approximation, written following the
specification text: `t = 1/(1+0.5*|z|)`, the fixed 9-term polynomial in `t`
evaluated by Horner's method inside the exponential, result
`1 - t*exp(-z^2 - 1.26551223 + poly(t))`, negated exactly where `z` is
negative. -/
noncomputable def erf_ref (z : ℝ) : ℝ :=
  let t : ℝ := 1 / (1 + 0.5 * |z|)
  let base : ℝ := 1 - t * Real.exp (-z ^ 2 - 1.26551223 +
      t * (1.00002368 +
      t * (0.37409196 +
      t * (0.09678418 +
      t * (-0.18628806 +
      t * (0.27886807 +
      t * (-1.13520398 +
      t * (1.48851587 +
      t * (-0.82215223 +
      t * 0.17087277)))))))))
  if z < 0 then -base else base

lemma erf_scalar_eq_ref (z : ℝ) : erf_scalar z = erf_ref z := by
  dsimp only [erf_scalar, erf_mag, erf_ref]
  split_ifs <;> ring_nf

lemma erf_mag_neg (z : ℝ) : erf_mag (-z) = erf_mag z := by
  unfold erf_mag
  rw [abs_neg]
  ring_nf

/-- The Horner sum at `t = 1`: the exponent of `erf_mag 0` is exactly
`3e-8 = 1.26551226 - 1.26551223`. -/
lemma erf_mag_zero : erf_mag 0 = 1 - Real.exp (3 / 100000000) := by
  unfold erf_mag
  norm_num

/-- Standard upper bound `exp s ≤ 1/(1-s)` for `s < 1`, derived from
`1 + x ≤ exp x` applied at `-s`. -/
lemma exp_le_inv_one_sub {s : ℝ} (hs : s < 1) : Real.exp s ≤ (1 - s)⁻¹ := by
  have h := Real.add_one_le_exp (-s)
  rw [Real.exp_neg] at h
  have hpos : (0 : ℝ) < Real.exp s := Real.exp_pos s
  have h1s : (0 : ℝ) < 1 - s := by linarith
  exact (le_inv_comm₀ h1s hpos).mp (by linarith)

lemma erf_mag_zero_neg : erf_mag 0 < 0 := by
  rw [erf_mag_zero]
  have h := Real.add_one_le_exp (3 / 100000000 : ℝ)
  linarith

lemma erf_mag_zero_gt : -(1 / 10000000 : ℝ) < erf_mag 0 := by
  rw [erf_mag_zero]
  have h := exp_le_inv_one_sub (show (3 / 100000000 : ℝ) < 1 by norm_num)
  have h2 : ((1 : ℝ) - 3 / 100000000)⁻¹ < 1 + 1 / 10000000 := by norm_num
  linarith

/-- The module's `cdf`: validates `kind`, recurses through `log` for the
log-normal case, and otherwise computes `(1 + erf((x-mu)/(sigma*sqrt 2)))/2`
elementwise. The failed `assert` is modelled as an `Except.error`. -/
noncomputable def cdf (x : RVal) (mu : ℝ) (sigma : ℝ) (kind : String) :
    Except String RVal :=
  if kind = "normal" ∨ kind = "lognormal" then
    if h : kind = "lognormal" then
      cdf (mapR Real.log x) mu sigma ("normal")
    else
      Except.ok (mapR (fun e => (1 + e) / 2)
        (erf (mapR (fun v => (v - mu) / (sigma * Real.sqrt 2)) x)))
  else
    Except.error ("Argument \"kind\" must be either normal or lognormal")
termination_by (if kind = "lognormal" then 1 else 0)
decreasing_by simp_all

lemma cdf_normal_scalar (x mu sigma : ℝ) :
    cdf (.scalar x) mu sigma ("normal") =
      Except.ok (.scalar ((1 + erf_scalar ((x - mu) / (sigma * Real.sqrt 2))) / 2)) := by
  rw [cdf]
  simp [mapR, erf]

lemma cdf_lognormal_scalar (x mu sigma : ℝ) :
    cdf (.scalar x) mu sigma ("lognormal") =
      cdf (.scalar (Real.log x)) mu sigma ("normal") := by
  rw [cdf]
  simp [mapR]

lemma cdf_invalid (x : RVal) (mu sigma : ℝ) (kind : String)
    (h1 : kind ≠ "normal") (h2 : kind ≠ "lognormal") :
    cdf x mu sigma kind =
      Except.error ("Argument \"kind\" must be either normal or lognormal") := by
  rw [cdf]
  simp [h1, h2]

/-- The fixed x-values of the lookup table in `cdf_table`:
`(numpy.arange(100) - 50.) / 10`, i.e. -5.00, -4.90, ..., 4.90. Kept as exact
rationals. -/
def tableX : List ℚ :=
  [-5.00, -4.90, -4.80, -4.70, -4.60, -4.50, -4.40, -4.30, -4.20, -4.10,
   -4.00, -3.90, -3.80, -3.70, -3.60, -3.50, -3.40, -3.30, -3.20, -3.10,
   -3.00, -2.90, -2.80, -2.70, -2.60, -2.50, -2.40, -2.30, -2.20, -2.10,
   -2.00, -1.90, -1.80, -1.70, -1.60, -1.50, -1.40, -1.30, -1.20, -1.10,
   -1.00, -0.90, -0.80, -0.70, -0.60, -0.50, -0.40, -0.30, -0.20, -0.10,
   0.00, 0.10, 0.20, 0.30, 0.40, 0.50, 0.60, 0.70, 0.80, 0.90, 1.00,
   1.10, 1.20, 1.30, 1.40, 1.50, 1.60, 1.70, 1.80, 1.90, 2.00, 2.10,
   2.20, 2.30, 2.40, 2.50, 2.60, 2.70, 2.80, 2.90, 3.00, 3.10, 3.20,
   3.30, 3.40, 3.50, 3.60, 3.70, 3.80, 3.90, 4.00, 4.10, 4.20, 4.30,
   4.40, 4.50, 4.60, 4.70, 4.80, 4.90]

/-- The fixed y-values of the lookup table in `cdf_table`, generated by
`scipy.stats.norm.cdf` on `tableX`. Kept as exact rationals. -/
def tableY : List ℚ :=
  [2.86651572e-07, 4.79183277e-07, 7.93328152e-07, 1.30080745e-06,
   2.11245470e-06, 3.39767312e-06, 5.41254391e-06, 8.53990547e-06,
   1.33457490e-05, 2.06575069e-05, 3.16712418e-05, 4.80963440e-05,
   7.23480439e-05, 1.07799733e-04, 1.59108590e-04, 2.32629079e-04,
   3.36929266e-04, 4.83424142e-04, 6.87137938e-04, 9.67603213e-04,
   1.34989803e-03, 1.86581330e-03, 2.55513033e-03, 3.46697380e-03,
   4.66118802e-03, 6.20966533e-03, 8.19753592e-03, 1.07241100e-02,
   1.39034475e-02, 1.78644206e-02, 2.27501319e-02, 2.87165598e-02,
   3.59303191e-02, 4.45654628e-02, 5.47992917e-02, 6.68072013e-02,
   8.07566592e-02, 9.68004846e-02, 1.15069670e-01, 1.35666061e-01,
   1.58655254e-01, 1.84060125e-01, 2.11855399e-01, 2.41963652e-01,
   2.74253118e-01, 3.08537539e-01, 3.44578258e-01, 3.82088578e-01,
   4.20740291e-01, 4.60172163e-01, 5.00000000e-01, 5.39827837e-01,
   5.79259709e-01, 6.17911422e-01, 6.55421742e-01, 6.91462461e-01,
   7.25746882e-01, 7.58036348e-01, 7.88144601e-01, 8.15939875e-01,
   8.41344746e-01, 8.64333939e-01, 8.84930330e-01, 9.03199515e-01,
   9.19243341e-01, 9.33192799e-01, 9.45200708e-01, 9.55434537e-01,
   9.64069681e-01, 9.71283440e-01, 9.77249868e-01, 9.82135579e-01,
   9.86096552e-01, 9.89275890e-01, 9.91802464e-01, 9.93790335e-01,
   9.95338812e-01, 9.96533026e-01, 9.97444870e-01, 9.98134187e-01,
   9.98650102e-01, 9.99032397e-01, 9.99312862e-01, 9.99516576e-01,
   9.99663071e-01, 9.99767371e-01, 9.99840891e-01, 9.99892200e-01,
   9.99927652e-01, 9.99951904e-01, 9.99968329e-01, 9.99979342e-01,
   9.99986654e-01, 9.99991460e-01, 9.99994587e-01, 9.99996602e-01,
   9.99997888e-01, 9.99998699e-01, 9.99999207e-01, 9.99999521e-01]

/-- Modelled from the spec: the external 1-D interpolation routine
`interpolate1d` (module `interpolation1d`, not part of this repository's
source) performing piecewise-linear interpolation over `(xs, ys)` knot
pairs, evaluated at a real query point. Out-of-domain queries extrapolate
using the nearest segment; `cdf_table` does not rely on that behavior (it
re-clamps explicitly, per the spec). -/
noncomputable def interpolate1d : List ℚ → List ℚ → ℝ → ℝ
  | x0 :: x1 :: xs, y0 :: y1 :: ys, z =>
      if z ≤ (x1 : ℝ) then
        (y0 : ℝ) + (z - (x0 : ℝ)) * ((y1 : ℝ) - (y0 : ℝ)) / ((x1 : ℝ) - (x0 : ℝ))
      else
        interpolate1d (x1 :: xs) (y1 :: ys) z
  | [_], [y0], _ => (y0 : ℝ)
  | _, _, _ => 0

/-- The clamping step of `cdf_table`, abstracted over the value `r`
produced by the interpolation call: `r[z < x[0]] = 0; r[z > x[-1]] = 1`
overwrites out-of-domain results AFTER interpolation. -/
noncomputable def cdf_table_clamp (r : ℝ → ℝ) (z : ℝ) : ℝ :=
  if z < -5 then 0
  else if (4.9 : ℝ) < z then 1
  else r z

/-- One element of `cdf_table`: interpolate over the fixed table, then
clamp out-of-domain queries to the asymptotic values 0 and 1. -/
noncomputable def cdf_table_scalar (z : ℝ) : ℝ :=
  cdf_table_clamp (interpolate1d tableX tableY) z

/-- The module's `cdf_table`: wraps a scalar into a length-1 array,
interpolates/clamps elementwise, and unwraps on return. -/
noncomputable def cdf_table : RVal → RVal
  | .scalar z => .scalar (cdf_table_scalar z)
  | .array zs => .array (zs.map cdf_table_scalar)

lemma interpolate1d_ge_head (xs : List ℚ) :
    ∀ (ys : List ℚ) (x0 y0 : ℚ) (z : ℝ),
      List.Chain' (· < ·) (x0 :: xs) → List.Chain' (· ≤ ·) (y0 :: ys) →
      xs.length = ys.length → (x0 : ℝ) ≤ z →
      (y0 : ℝ) ≤ interpolate1d (x0 :: xs) (y0 :: ys) z := by
  induction xs with
  | nil =>
    intro ys x0 y0 z _ _ hlen _
    cases ys with
    | nil => simp [interpolate1d]
    | cons y1 ys' => simp at hlen
  | cons x1 xs' ih =>
    intro ys x0 y0 z hx hy hlen hz
    cases ys with
    | nil => simp at hlen
    | cons y1 ys' =>
      have hx01 : (x0 : ℝ) < (x1 : ℝ) := by exact_mod_cast (List.chain'_cons.mp hx).1
      have hy01 : (y0 : ℝ) ≤ (y1 : ℝ) := by exact_mod_cast (List.chain'_cons.mp hy).1
      rw [interpolate1d]
      by_cases hcase : z ≤ (x1 : ℝ)
      · rw [if_pos hcase]
        have hnn : 0 ≤ (z - (x0 : ℝ)) * ((y1 : ℝ) - (y0 : ℝ)) / ((x1 : ℝ) - (x0 : ℝ)) :=
          div_nonneg (mul_nonneg (by linarith) (by linarith)) (by linarith)
        linarith
      · rw [if_neg hcase]
        push_neg at hcase
        have h1 := ih ys' x1 y1 z (List.chain'_cons.mp hx).2 (List.chain'_cons.mp hy).2
          (by simpa using hlen) (le_of_lt hcase)
        linarith

lemma interpolate1d_mono (xs : List ℚ) :
    ∀ (ys : List ℚ) (z1 z2 : ℝ),
      List.Chain' (· < ·) xs → List.Chain' (· ≤ ·) ys →
      xs.length = ys.length → z1 ≤ z2 →
      interpolate1d xs ys z1 ≤ interpolate1d xs ys z2 := by
  induction xs with
  | nil =>
    intro ys z1 z2 _ _ hlen _
    cases ys with
    | nil => simp [interpolate1d]
    | cons y1 ys' => simp at hlen
  | cons x0 xs0 ih =>
    intro ys z1 z2 hx hy hlen hz
    cases ys with
    | nil => simp at hlen
    | cons y0 ys0 =>
      cases xs0 with
      | nil =>
        cases ys0 with
        | nil => simp [interpolate1d]
        | cons y1 ys1 => simp at hlen
      | cons x1 xs1 =>
        cases ys0 with
        | nil => simp at hlen
        | cons y1 ys1 =>
          have hx01 : (x0 : ℝ) < (x1 : ℝ) := by exact_mod_cast (List.chain'_cons.mp hx).1
          have hy01 : (y0 : ℝ) ≤ (y1 : ℝ) := by exact_mod_cast (List.chain'_cons.mp hy).1
          have hxne : (x1 : ℝ) - (x0 : ℝ) ≠ 0 := by linarith
          rw [interpolate1d, interpolate1d]
          by_cases h2 : z2 ≤ (x1 : ℝ)
          · have h1 : z1 ≤ (x1 : ℝ) := le_trans hz h2
            rw [if_pos h1, if_pos h2]
            have hstep : (z1 - (x0 : ℝ)) * ((y1 : ℝ) - (y0 : ℝ)) ≤
                (z2 - (x0 : ℝ)) * ((y1 : ℝ) - (y0 : ℝ)) :=
              mul_le_mul_of_nonneg_right (by linarith) (by linarith)
            have := (div_le_div_right (show (0:ℝ) < (x1:ℝ) - (x0:ℝ) by linarith)).mpr hstep
            linarith
          · rw [if_neg h2]
            push_neg at h2
            by_cases h1 : z1 ≤ (x1 : ℝ)
            · rw [if_pos h1]
              have hup : (y0 : ℝ) + (z1 - (x0 : ℝ)) * ((y1 : ℝ) - (y0 : ℝ)) / ((x1 : ℝ) - (x0 : ℝ)) ≤
                  (y1 : ℝ) := by
                have hx10 : (0:ℝ) < (x1:ℝ) - (x0:ℝ) := by linarith
                have key : (z1 - (x0 : ℝ)) * ((y1 : ℝ) - (y0 : ℝ)) / ((x1 : ℝ) - (x0 : ℝ)) ≤
                    (y1 : ℝ) - (y0 : ℝ) := by
                  rw [div_le_iff hx10]
                  nlinarith
                linarith
              have hlow := interpolate1d_ge_head xs1 ys1 x1 y1 z2
                (List.chain'_cons.mp hx).2 (List.chain'_cons.mp hy).2
                (by simpa using hlen) (le_of_lt h2)
              linarith
            · rw [if_neg h1]
              exact ih (y1 :: ys1) z1 z2 (List.chain'_cons.mp hx).2
                (List.chain'_cons.mp hy).2 (by simpa using hlen) hz

lemma chain_lt_getLastD (l : List ℚ) :
    ∀ a : ℚ, l ≠ [] → List.Chain' (· < ·) (a :: l) → a < l.getLastD a := by
  induction l with
  | nil => intro a hne _; exact absurd rfl hne
  | cons b l' ih =>
    intro a _ hchain
    cases l' with
    | nil => simpa using (List.chain'_cons.mp hchain).1
    | cons c l'' =>
      have hab : a < b := (List.chain'_cons.mp hchain).1
      have := ih b (by simp) (List.chain'_cons.mp hchain).2
      simp only [List.getLastD_cons] at this ⊢
      exact lt_trans hab this

lemma interpolate1d_getLastD (xs : List ℚ) :
    ∀ (ys : List ℚ) (x0 y0 : ℚ),
      List.Chain' (· < ·) (x0 :: xs) → xs.length = ys.length →
      interpolate1d (x0 :: xs) (y0 :: ys) (((xs.getLastD x0 : ℚ) : ℝ)) =
        ((ys.getLastD y0 : ℚ) : ℝ) := by
  induction xs with
  | nil =>
    intro ys x0 y0 _ hlen
    cases ys with
    | nil => simp [interpolate1d]
    | cons y1 ys' => simp at hlen
  | cons x1 xs' ih =>
    intro ys x0 y0 hx hlen
    cases ys with
    | nil => simp at hlen
    | cons y1 ys' =>
      have hx01 : (x0 : ℚ) < x1 := (List.chain'_cons.mp hx).1
      simp only [List.getLastD_cons]
      cases xs' with
      | nil =>
        cases ys' with
        | nil =>
          simp only [List.getLastD_nil]
          rw [interpolate1d]
          rw [if_pos (le_refl ((x1 : ℚ) : ℝ))]
          have hne : ((x1 : ℝ)) - ((x0 : ℝ)) ≠ 0 := by
            have : (x0 : ℝ) < (x1 : ℝ) := by exact_mod_cast hx01
            linarith
          field_simp
        | cons _ _ => simp at hlen
      | cons x2 xs'' =>
        cases ys' with
        | nil => simp at hlen
        | cons y2 ys'' =>
          have hlast : (x1 : ℚ) < (x2 :: xs'').getLastD x1 :=
            chain_lt_getLastD (x2 :: xs'') x1 (by simp) (List.chain'_cons.mp hx).2
          rw [interpolate1d]
          rw [if_neg (by push_neg; exact_mod_cast hlast)]
          exact ih (y2 :: ys'') x1 y1 (List.chain'_cons.mp hx).2 (by simpa using hlen)

lemma tableX_chain : List.Chain' (· < ·) tableX := by
  unfold tableX
  simp only [List.chain'_cons, List.chain'_singleton, and_true]
  norm_num

lemma tableY_chain : List.Chain' (· ≤ ·) tableY := by
  unfold tableY
  simp only [List.chain'_cons, List.chain'_singleton, and_true]
  norm_num

lemma table_len : tableX.length = tableY.length := by
  unfold tableX tableY
  simp

lemma table_cons_x : tableX = (-5.00 : ℚ) :: tableX.tail := rfl

lemma table_cons_y : tableY = (2.86651572e-07 : ℚ) :: tableY.tail := rfl

lemma tableX_tail_getLastD : tableX.tail.getLastD (-5.00) = (4.90 : ℚ) := rfl

lemma tableY_tail_getLastD :
    tableY.tail.getLastD (2.86651572e-07) = (9.99999521e-01 : ℚ) := rfl

/-- The interpolant evaluated exactly at the right end of the table domain
returns the last table entry. -/
lemma interp_table_at_right :
    interpolate1d tableX tableY (((4.90 : ℚ) : ℝ)) = ((9.99999521e-01 : ℚ) : ℝ) := by
  have h := interpolate1d_getLastD tableX.tail tableY.tail (-5.00) (2.86651572e-07)
    (by rw [← table_cons_x]; exact tableX_chain) (by rfl)
  rw [← table_cons_x, ← table_cons_y, tableX_tail_getLastD, tableY_tail_getLastD] at h
  exact h

/-- For queries inside the table domain the interpolant stays between the
first and last table entries. -/
lemma interp_table_bounds (z : ℝ) (h1 : (-5 : ℝ) ≤ z) (h2 : z ≤ (4.9 : ℝ)) :
    ((2.86651572e-07 : ℚ) : ℝ) ≤ interpolate1d tableX tableY z ∧
      interpolate1d tableX tableY z ≤ ((9.99999521e-01 : ℚ) : ℝ) := by
  constructor
  · have hcast : (((-5.00 : ℚ)) : ℝ) ≤ z := by push_cast; linarith
    have h := interpolate1d_ge_head tableX.tail tableY.tail (-5.00) (2.86651572e-07) z
      (by rw [← table_cons_x]; exact tableX_chain)
      (by rw [← table_cons_y]; exact tableY_chain) (by rfl) hcast
    rw [← table_cons_x, ← table_cons_y] at h
    exact h
  · have hcast : z ≤ (((4.90 : ℚ)) : ℝ) := by push_cast; linarith
    have hm := interpolate1d_mono tableX tableY z (((4.90 : ℚ)) : ℝ)
      tableX_chain tableY_chain table_len hcast
    rw [interp_table_at_right] at hm
    exact hm

/-- `cdf_table_scalar` always lies in [0, 1]. -/
lemma cdf_table_scalar_bounds (z : ℝ) :
    0 ≤ cdf_table_scalar z ∧ cdf_table_scalar z ≤ 1 := by
  unfold cdf_table_scalar cdf_table_clamp
  split_ifs with ha hb
  · norm_num
  · norm_num
  · have h := interp_table_bounds z (by linarith) (by linarith)
    have hy0 : (0 : ℝ) ≤ ((2.86651572e-07 : ℚ) : ℝ) := by norm_num
    have hy99 : ((9.99999521e-01 : ℚ) : ℝ) ≤ 1 := by norm_num
    constructor <;> linarith [h.1, h.2]

/-- `cdf_table_scalar` is monotone (non-strictly) on all of ℝ. -/
lemma cdf_table_scalar_mono (z1 z2 : ℝ) (hz : z1 ≤ z2) :
    cdf_table_scalar z1 ≤ cdf_table_scalar z2 := by
  by_cases ha : z1 < -5
  · have e1 : cdf_table_scalar z1 = 0 := by
      unfold cdf_table_scalar cdf_table_clamp; rw [if_pos ha]
    rw [e1]
    exact (cdf_table_scalar_bounds z2).1
  · have ha' : (-5 : ℝ) ≤ z1 := not_lt.mp ha
    by_cases hb : (4.9 : ℝ) < z1
    · have h2 : (4.9 : ℝ) < z2 := lt_of_lt_of_le hb hz
      have e1 : cdf_table_scalar z1 = 1 := by
        unfold cdf_table_scalar cdf_table_clamp; rw [if_neg ha, if_pos hb]
      have e2 : cdf_table_scalar z2 = 1 := by
        unfold cdf_table_scalar cdf_table_clamp
        rw [if_neg (by push_neg; linarith), if_pos h2]
      rw [e1, e2]
    · have hb' : z1 ≤ (4.9 : ℝ) := not_lt.mp hb
      have e1 : cdf_table_scalar z1 = interpolate1d tableX tableY z1 := by
        unfold cdf_table_scalar cdf_table_clamp; rw [if_neg ha, if_neg hb]
      by_cases hc : (4.9 : ℝ) < z2
      · have e2 : cdf_table_scalar z2 = 1 := by
          unfold cdf_table_scalar cdf_table_clamp
          rw [if_neg (by push_neg; linarith), if_pos hc]
        have hup := (interp_table_bounds z1 ha' hb').2
        have hy99 : ((9.99999521e-01 : ℚ) : ℝ) ≤ 1 := by norm_num
        rw [e1, e2]
        linarith
      · have e2 : cdf_table_scalar z2 = interpolate1d tableX tableY z2 := by
          unfold cdf_table_scalar cdf_table_clamp
          rw [if_neg (by push_neg; linarith), if_neg hc]
        rw [e1, e2]
        exact interpolate1d_mono tableX tableY z1 z2 tableX_chain tableY_chain table_len hz

/-- The 9-coefficient Horner polynomial of `erf`, factored out for
arithmetic estimates. -/
noncomputable def horner9 (t : ℝ) : ℝ :=
  t * (1.00002368 +
  t * (0.37409196 +
  t * (0.09678418 +
  t * (-0.18628806 +
  t * (0.27886807 +
  t * (-1.13520398 +
  t * (1.48851587 +
  t * (-0.82215223 +
  t * 0.17087277))))))))

lemma erf_mag_eq (z : ℝ) :
    erf_mag z = 1 - (1.0 / (1.0 + 0.5 * |z|)) *
      Real.exp (-z * z - 1.26551223 + horner9 (1.0 / (1.0 + 0.5 * |z|))) := rfl

/-- Linear lower bound on the exponential inside `erf_mag`, giving an upper
bound on `erf_mag` by exact rational arithmetic. -/
lemma erf_mag_le (z : ℝ) :
    erf_mag z ≤ 1 - (1.0 / (1.0 + 0.5 * |z|)) *
      ((-z * z - 1.26551223 + horner9 (1.0 / (1.0 + 0.5 * |z|))) + 1) := by
  rw [erf_mag_eq]
  have ht : (0 : ℝ) ≤ 1.0 / (1.0 + 0.5 * |z|) := by positivity
  have hexp := Real.add_one_le_exp
    (-z * z - 1.26551223 + horner9 (1.0 / (1.0 + 0.5 * |z|)))
  have := mul_le_mul_of_nonneg_left hexp ht
  linarith

/-- The heart of the non-monotonicity of the `erf`-based cdf: the body `ans`
is negative both at 0 and at 1e-8, so negating it at `-1e-8` produces a value
strictly above `erf(0)`. -/
lemma erf_mag_small_sum : erf_mag (1 / 100000000) + erf_mag 0 < 0 := by
  have habs : |(1 / 100000000 : ℝ)| = 1 / 100000000 := by
    rw [abs_of_pos]; norm_num
  have h1 := erf_mag_le (1 / 100000000)
  rw [habs] at h1
  have h0 : erf_mag 0 ≤ -(3 / 100000000 : ℝ) := by
    rw [erf_mag_zero]
    have := Real.add_one_le_exp (3 / 100000000 : ℝ)
    linarith
  have key : 1 - (1.0 / (1.0 + 0.5 * (1 / 100000000 : ℝ))) *
      ((-(1 / 100000000 : ℝ) * (1 / 100000000) - 1.26551223 +
        horner9 (1.0 / (1.0 + 0.5 * (1 / 100000000 : ℝ)))) + 1) <
      3 / 100000000 := by
    unfold horner9
    norm_num
  linarith

/-- Unfolding of `cdf` for a valid `kind = "normal"` on any value. -/
lemma cdf_normal_eq (x : RVal) (mu sigma : ℝ) :
    cdf x mu sigma ("normal") =
      Except.ok (mapR (fun e => (1 + e) / 2)
        (erf (mapR (fun v => (v - mu) / (sigma * Real.sqrt 2)) x))) := by
  rw [cdf]
  simp

/-- Unfolding of `cdf` for `kind = "lognormal"`: the recursive call. -/
lemma cdf_lognormal_eq (x : RVal) (mu sigma : ℝ) :
    cdf x mu sigma ("lognormal") = cdf (mapR Real.log x) mu sigma ("normal") := by
  rw [cdf]
  simp

/-- C1: for every real scalar or array `z`, `erf(z)` equals the reference
definition: with `t = 1/(1+0.5*|z|)` the result is
`1 - t*exp(-z^2 - 1.26551223 + p(t))` with the fixed 9-term Horner
polynomial `p`, negated element-wise exactly at the positions where the
input is negative. -/
theorem C1_erf_matches_reference :
    (∀ z : ℝ, erf_scalar z = erf_ref z) ∧
    (∀ z : ℝ, erf (RVal.scalar z) = RVal.scalar (erf_ref z)) ∧
    (∀ zs : List ℝ, erf (RVal.array zs) = RVal.array (zs.map erf_ref)) := by
  have hfun : erf_scalar = erf_ref := funext erf_scalar_eq_ref
  refine ⟨erf_scalar_eq_ref, fun z => ?_, fun zs => ?_⟩
  · rw [erf, erf_scalar_eq_ref]
  · rw [erf, hfun]

/-- C2: `cdf(x, mu, sigma, "normal")` returns
`(1 + erf((x-mu)/(sigma*sqrt 2)))/2`; the lognormal case recurses into the
normal case with `x` replaced by `ln x` and `mu`, `sigma` unchanged, with no
special handling of non-positive `x`; in particular
`cdf(1, 0, 1, "lognormal") = cdf(0, 0, 1, "normal")`. -/
theorem C2_cdf_formula :
    (∀ x mu sigma : ℝ, cdf (.scalar x) mu sigma ("normal") =
      Except.ok (.scalar ((1 + erf_scalar ((x - mu) / (sigma * Real.sqrt 2))) / 2))) ∧
    (∀ x mu sigma : ℝ, cdf (.scalar x) mu sigma ("lognormal") =
      cdf (.scalar (Real.log x)) mu sigma ("normal")) ∧
    cdf (.scalar 1) 0 1 "lognormal" = cdf (.scalar 0) 0 1 "normal" := by
  refine ⟨cdf_normal_scalar, cdf_lognormal_scalar, ?_⟩
  rw [cdf_lognormal_scalar, Real.log_one]

/-- C3: the clamping step of `cdf_table` maps every `z < -5.00` to exactly 0
and every `z > 4.90` to exactly 1, irrespective of the value the
interpolation call produced at those points (it is applied after, and
overwrites, the interpolation result); e.g. `cdf_table(-10) = 0` and
`cdf_table(10) = 1`. -/
theorem C3_cdf_table_clamps :
    (∀ (f : ℝ → ℝ) (z : ℝ), z < -5 → cdf_table_clamp f z = 0) ∧
    (∀ (f : ℝ → ℝ) (z : ℝ), (4.9 : ℝ) < z → cdf_table_clamp f z = 1) ∧
    cdf_table_scalar (-10) = 0 ∧ cdf_table_scalar 10 = 1 := by
  refine ⟨fun f z hz => ?_, fun f z hz => ?_, ?_, ?_⟩
  · rw [cdf_table_clamp, if_pos hz]
  · rw [cdf_table_clamp, if_neg (by linarith), if_pos hz]
  · rw [cdf_table_scalar, cdf_table_clamp, if_pos (by norm_num)]
  · rw [cdf_table_scalar, cdf_table_clamp, if_neg (by norm_num), if_pos (by norm_num)]

/-- Witness for C3 at concrete out-of-domain inputs, with an interpolant
that returns garbage. -/
theorem C3_cdf_table_clamps_witness :
    (-6 : ℝ) < -5 ∧ (4.9 : ℝ) < 6 ∧
    cdf_table_clamp (fun _ => 37) (-6) = 0 ∧
    cdf_table_clamp (fun _ => 37) 6 = 1 :=
  ⟨by norm_num, by norm_num,
    C3_cdf_table_clamps.1 (fun _ => 37) (-6) (by norm_num),
    C3_cdf_table_clamps.2.1 (fun _ => 37) 6 (by norm_num)⟩

/-- C4 counterexample: at the left table endpoint no clamp applies, so
`cdf_table(-5.00)` returns the first table entry `2.86651572e-07`, which is
not exactly 0 as the claim states. -/
theorem C4_counterexample :
    cdf_table_scalar (-5) = ((2.86651572e-07 : ℚ) : ℝ) ∧
    cdf_table_scalar (-5) ≠ 0 := by
  have heval : cdf_table_scalar (-5) = ((2.86651572e-07 : ℚ) : ℝ) := by
    rw [cdf_table_scalar, cdf_table_clamp, if_neg (by norm_num), if_neg (by norm_num)]
    unfold tableX tableY
    rw [interpolate1d, if_pos (by norm_num)]
    norm_num
  refine ⟨heval, ?_⟩
  rw [heval]
  norm_num

/-- C4 amended: at the exact table endpoints no clamp applies:
`cdf_table(-5.00)` returns the first table entry `2.86651572e-07` (not 0),
and `cdf_table(4.90)` returns the last table entry `0.999999521`. -/
theorem C4_amended_endpoints :
    cdf_table_scalar (-5) = ((2.86651572e-07 : ℚ) : ℝ) ∧
    cdf_table_scalar (4.9) = ((9.99999521e-01 : ℚ) : ℝ) := by
  constructor
  · rw [cdf_table_scalar, cdf_table_clamp, if_neg (by norm_num), if_neg (by norm_num)]
    unfold tableX tableY
    rw [interpolate1d, if_pos (by norm_num)]
    norm_num
  · rw [cdf_table_scalar, cdf_table_clamp, if_neg (by norm_num), if_neg (by norm_num)]
    rw [show (4.9 : ℝ) = ((4.90 : ℚ) : ℝ) by norm_num]
    exact interp_table_at_right

/-- C5 counterexample: `erf(0)` is not exactly 0 (it equals
`1 - exp(3e-8) < 0` by catastrophic cancellation of the Chebyshev fit), and
consequently `cdf(0)` is not exactly 0.5. -/
theorem C5_counterexample :
    erf_scalar 0 ≠ 0 ∧
    cdf (.scalar 0) 0 1 "normal" ≠ Except.ok (.scalar (1 / 2)) := by
  have hneg : erf_scalar 0 < 0 := by
    rw [erf_scalar, if_neg (by norm_num)]
    exact erf_mag_zero_neg
  constructor
  · exact ne_of_lt hneg
  · rw [cdf_normal_scalar]
    intro h
    rw [Except.ok.injEq, RVal.scalar.injEq] at h
    have : erf_scalar ((0 - 0) / (1 * Real.sqrt 2)) = 0 := by linarith
    rw [show ((0 : ℝ) - 0) / (1 * Real.sqrt 2) = 0 by simp] at this
    linarith

/-- C5 amended: the zero-input boundary values hold only approximately:
`|erf(0)| < 1.2e-7` and `cdf(0) = (1 + erf(0))/2` is within `6e-8` of 0.5,
the deviation being the documented catastrophic cancellation near 0. -/
theorem C5_amended_boundary :
    |erf_scalar 0| < 12 / 100000000 ∧
    cdf (.scalar 0) 0 1 "normal" =
      Except.ok (.scalar ((1 + erf_scalar 0) / 2)) ∧
    |(1 + erf_scalar 0) / 2 - 1 / 2| < 6 / 100000000 := by
  have h0 : erf_scalar 0 = erf_mag 0 := by
    rw [erf_scalar, if_neg (by norm_num)]
  have hneg := erf_mag_zero_neg
  have hgt := erf_mag_zero_gt
  refine ⟨?_, ?_, ?_⟩
  · rw [h0]
    rw [abs_lt]
    constructor <;> linarith
  · rw [cdf_normal_scalar]
    rw [show ((0 : ℝ) - 0) / (1 * Real.sqrt 2) = 0 by simp]
  · rw [h0, abs_lt]
    constructor <;> linarith

/-- C6: `cdf` fails with the invalid-argument error exactly when `kind` is
neither "normal" nor "lognormal", independently of the other arguments (no
computation happens in the error case). -/
theorem C6_cdf_kind_validation :
    ∀ (x : RVal) (mu sigma : ℝ) (kind : String),
      cdf x mu sigma kind =
          Except.error ("Argument \"kind\" must be either normal or lognormal") ↔
        (kind ≠ "normal" ∧ kind ≠ "lognormal") := by
  intro x mu sigma kind
  constructor
  · intro h
    by_cases h1 : kind = "normal"
    · subst h1
      rw [cdf_normal_eq] at h
      exact absurd h (by simp)
    · by_cases h2 : kind = "lognormal"
      · subst h2
        rw [cdf_lognormal_eq, cdf_normal_eq] at h
        exact absurd h (by simp)
      · exact ⟨h1, h2⟩
  · intro h
    exact cdf_invalid x mu sigma kind h.1 h.2

/-- C7: shape preservation: scalar inputs yield scalar outputs and array
inputs yield arrays of the same length, for `erf`, `cdf` (with default
parameters) and `cdf_table`. -/
theorem C7_shape_preservation :
    (∀ x : ℝ, ∃ y : ℝ, erf (RVal.scalar x) = RVal.scalar y) ∧
    (∀ xs : List ℝ, ∃ ys : List ℝ,
      erf (RVal.array xs) = RVal.array ys ∧ ys.length = xs.length) ∧
    (∀ x : ℝ, ∃ y : ℝ, cdf (RVal.scalar x) 0 1 "normal" = Except.ok (RVal.scalar y)) ∧
    (∀ xs : List ℝ, ∃ ys : List ℝ,
      cdf (RVal.array xs) 0 1 "normal" = Except.ok (RVal.array ys) ∧
        ys.length = xs.length) ∧
    (∀ x : ℝ, ∃ y : ℝ, cdf_table (RVal.scalar x) = RVal.scalar y) ∧
    (∀ xs : List ℝ, ∃ ys : List ℝ,
      cdf_table (RVal.array xs) = RVal.array ys ∧ ys.length = xs.length) := by
  refine ⟨fun x => ⟨erf_scalar x, rfl⟩,
    fun xs => ⟨xs.map erf_scalar, rfl, List.length_map xs erf_scalar⟩,
    fun x => ⟨(1 + erf_scalar ((x - 0) / (1 * Real.sqrt 2))) / 2, cdf_normal_scalar x 0 1⟩,
    fun xs => ?_,
    fun x => ⟨cdf_table_scalar x, rfl⟩,
    fun xs => ⟨xs.map cdf_table_scalar, rfl, List.length_map xs cdf_table_scalar⟩⟩
  refine ⟨((xs.map (fun v => (v - 0) / (1 * Real.sqrt 2))).map erf_scalar).map
    (fun e => (1 + e) / 2), ?_, ?_⟩
  · rw [cdf_normal_eq]
    rfl
  · simp

/-- C8: odd symmetry of the erf approximation: `erf(-z)` and `-erf(z)` agree
within `1e-6` for every real `z` (they agree exactly except at `z = 0`,
where the difference is `2*(1 - exp(3e-8))`, of magnitude below `2e-7`). -/
theorem C8_erf_odd_symmetry :
    ∀ z : ℝ, |erf_scalar (-z) + erf_scalar z| ≤ 1 / 1000000 := by
  intro z
  rcases lt_trichotomy z 0 with h | h | h
  · rw [erf_scalar, erf_scalar, if_neg (show ¬(-z < 0) by push_neg; linarith),
      if_pos h, erf_mag_neg]
    simp
  · subst h
    rw [neg_zero, erf_scalar, if_neg (by norm_num)]
    have h1 := erf_mag_zero_neg
    have h2 := erf_mag_zero_gt
    rw [abs_le]
    constructor <;> linarith
  · rw [erf_scalar, erf_scalar, if_pos (show -z < 0 by linarith),
      if_neg (show ¬(z < 0) by push_neg; linarith), erf_mag_neg]
    simp

/-- C9 counterexample: the `erf`-based `cdf` is not monotone: at
`z1 = -sqrt(2)*1e-8 < z2 = 0` the computed cdf values satisfy
`cdf(z1) > cdf(z2)`, because the cancellation at 0 makes `erf(0)` slightly
negative while `erf(-1e-8)` is slightly positive. -/
theorem C9_counterexample :
    -(Real.sqrt 2) / 100000000 < (0 : ℝ) ∧
    cdf (.scalar (-(Real.sqrt 2) / 100000000)) 0 1 "normal" =
      Except.ok (.scalar ((1 + erf_scalar (-(1 / 100000000))) / 2)) ∧
    cdf (.scalar 0) 0 1 "normal" =
      Except.ok (.scalar ((1 + erf_scalar 0) / 2)) ∧
    (1 + erf_scalar 0) / 2 < (1 + erf_scalar (-(1 / 100000000))) / 2 := by
  have hs2 : (0 : ℝ) < Real.sqrt 2 := Real.sqrt_pos.mpr (by norm_num)
  have hs2' : Real.sqrt 2 ≠ 0 := ne_of_gt hs2
  have hlt : -(Real.sqrt 2) / 100000000 < (0 : ℝ) := by
    rw [neg_div]
    have : (0 : ℝ) < Real.sqrt 2 / 100000000 := by positivity
    linarith
  have harg : (-(Real.sqrt 2) / 100000000 - 0) / (1 * Real.sqrt 2) =
      -(1 / 100000000 : ℝ) := by
    rw [sub_zero, one_mul, div_div, mul_comm, ← div_div, neg_div, div_self hs2']
    norm_num
  refine ⟨hlt, ?_, ?_, ?_⟩
  · rw [cdf_normal_scalar, harg]
  · rw [cdf_normal_scalar]
    rw [show ((0 : ℝ) - 0) / (1 * Real.sqrt 2) = 0 by simp]
  · have e0 : erf_scalar 0 = erf_mag 0 := by
      rw [erf_scalar, if_neg (by norm_num)]
    have e1 : erf_scalar (-(1 / 100000000)) = -erf_mag (1 / 100000000) := by
      rw [erf_scalar, if_pos (by norm_num), erf_mag_neg]
    rw [e0, e1]
    have := erf_mag_small_sum
    linarith

/-- C9 amended: `cdf_table` is monotone for all pairs of reals, but the
`erf`-based `cdf` is not (it fails by about `5e-8` just below 0). -/
theorem C9_amended_cdf_table_mono :
    ∀ z1 z2 : ℝ, z1 < z2 → cdf_table_scalar z1 ≤ cdf_table_scalar z2 :=
  fun z1 z2 hz => cdf_table_scalar_mono z1 z2 (le_of_lt hz)

/-- Witness for the amended C9 at a concrete pair. -/
theorem C9_amended_cdf_table_mono_witness :
    (0 : ℝ) < 1 ∧ cdf_table_scalar 0 ≤ cdf_table_scalar 1 :=
  ⟨by norm_num, C9_amended_cdf_table_mono 0 1 (by norm_num)⟩

/-- C10: every value returned by `cdf_table` lies in the closed interval
[0, 1]: in-domain queries interpolate between table entries (all within
`[2.86651572e-07, 0.999999521]`), out-of-domain queries are clamped to
exactly 0 or 1. -/
theorem C10_cdf_table_in_unit_interval :
    ∀ z : ℝ, 0 ≤ cdf_table_scalar z ∧ cdf_table_scalar z ≤ 1 :=
  fun z => cdf_table_scalar_bounds z

end Numerics
